import Mathlib

/-!
Verification of the battle ingestion and deduplication pipeline of the
Bot_Reequipos_Linhir repository.  The Python sources (`tasks/monitor.py`,
`database.py`, `albion_api.py`) are shallowly embedded: strings are lists of
characters, the relational store is an explicit record of row lists, remote
HTTP calls become explicit input parameters, and the stateful processing
loops become pure state-passing functions mirroring the source line by line.
-/

/-- Python strings are modelled as lists of characters. -/
abbrev Str := List Char

/-- Conversion from a Lean string literal to the character-list model. -/
def strOf (s : String) : Str := s.data

/- ------------------------------------------------------------------
   Models of the Python primitives used by the sources:
   `str.split('@', 1)`, `int(...)`, `str.strip()` truthiness of strings.
   ------------------------------------------------------------------ -/

/-- Model of `s.split(sep, 1)` restricted to a single-character separator:
returns the parts before and after the first occurrence of `sep`, or `none`
when `sep` does not occur (Python's `'@' in item_type` test). -/
def split_first_at (sep : Char) : Str → Option (Str × Str)
  | [] => none
  | c :: cs =>
    if c = sep then some ([], cs)
    else
      match split_first_at sep cs with
      | some (l, r) => some (c :: l, r)
      | none => none

/-- Digit accumulation for the `int()` model.  Python 3 allows single
underscores strictly between digits (`int("1_0") = 10`). -/
def py_digits_core (acc : Nat) : Str → Option Nat
  | [] => some acc
  | '_' :: c :: cs =>
    if c.isDigit then py_digits_core (acc * 10 + (c.toNat - 48)) cs else none
  | '_' :: [] => none
  | c :: cs =>
    if c.isDigit then py_digits_core (acc * 10 + (c.toNat - 48)) cs else none

/-- Value of a digit group: must start with a digit. -/
def py_digits (s : Str) : Option Nat :=
  match s with
  | [] => none
  | c :: cs => if c.isDigit then py_digits_core (c.toNat - 48) cs else none

/-- `s.strip()`: remove leading and trailing whitespace. -/
def py_strip (s : Str) : Str :=
  ((s.dropWhile Char.isWhitespace).reverse.dropWhile Char.isWhitespace).reverse

/-- Model of Python `int(s)` for strings: optional surrounding whitespace,
optional sign, then digits (with underscores between digits).  Returns
`none` where Python raises `ValueError`. -/
def py_int (s : Str) : Option Int :=
  match py_strip s with
  | '+' :: rest => (py_digits rest).map Int.ofNat
  | '-' :: rest => (py_digits rest).map (fun n => -(n : Int))
  | rest => (py_digits rest).map Int.ofNat

/-- Embedding of `parse_item_type` (tasks/monitor.py, lines 16-30): split a
compound item identifier at the first `'@'`; the suffix is parsed with
`int()`, and a `ValueError` (unparsable suffix) yields enchant level 0. -/
def parse_item_type (item_type : Str) : Str × Int :=
  match split_first_at '@' item_type with
  | some (base, enchant) =>
    match py_int enchant with
    | some enchant_level => (base, enchant_level)
    | none => (base, 0)
  | none => (item_type, 0)

/- ------------------------------------------------------------------
   Timestamp normalization (`database.py`, lines 21-34).
   `datetime.fromisoformat` is modelled after Python 3.11+ semantics:
   extended ISO-8601 date, one arbitrary separator character, a time with
   optional minutes/seconds, an optional fractional part truncated to
   microseconds, and an optional UTC offset.  Strings the parser rejects
   correspond to a `ValueError` in Python. -/

/-- A parsed `datetime` value (the timezone offset is validated during
parsing but not stored, matching `strftime` on the local fields). -/
structure PyDateTime where
  year : Nat
  month : Nat
  day : Nat
  hour : Nat
  minute : Nat
  second : Nat
  microsecond : Nat
deriving DecidableEq, Repr

/-- Read exactly two decimal digits. -/
def parse2 : Str → Option (Nat × Str)
  | a :: b :: rest =>
    if a.isDigit ∧ b.isDigit then
      some ((a.toNat - 48) * 10 + (b.toNat - 48), rest)
    else none
  | _ => none

/-- Read exactly four decimal digits. -/
def parse4 : Str → Option (Nat × Str)
  | a :: b :: c :: d :: rest =>
    if a.isDigit ∧ b.isDigit ∧ c.isDigit ∧ d.isDigit then
      some ((a.toNat - 48) * 1000 + (b.toNat - 48) * 100 +
            (c.toNat - 48) * 10 + (d.toNat - 48), rest)
    else none
  | _ => none

/-- Expect one specific character. -/
def expect_char (c : Char) : Str → Option Str
  | x :: rest => if x = c then some rest else none
  | [] => none

/-- Gregorian leap-year test used by the `datetime` day-of-month check. -/
def is_leap (y : Nat) : Bool :=
  y % 4 = 0 ∧ (y % 100 ≠ 0 ∨ y % 400 = 0)

/-- Days in a month, as validated by `datetime`. -/
def days_in_month (y m : Nat) : Nat :=
  if m = 2 then (if is_leap y then 29 else 28)
  else if m = 4 ∨ m = 6 ∨ m = 9 ∨ m = 11 then 30
  else 31

/-- Fractional seconds: the leading digits are truncated to microsecond
precision (six digits), shorter fractions are scaled up. -/
def micro_of_digits (ds : Str) : Nat :=
  let d6 := ds.take 6
  (d6.foldl (fun a c => a * 10 + (c.toNat - 48)) 0) * 10 ^ (6 - d6.length)

/-- Trailing timezone designator: empty (naive), `Z`/`z`, or a signed
`HH:MM[:SS[.digits]]` offset.  Returns `true` when the whole remainder is a
valid designator. -/
def parse_tzinfo : Str → Bool
  | [] => true
  | ['Z'] => true
  | ['z'] => true
  | c :: rest =>
    if c = '+' ∨ c = '-' then
      match parse2 rest with
      | some (hh, r1) =>
        if 23 < hh then false
        else
          match expect_char ':' r1 with
          | some r2 =>
            match parse2 r2 with
            | some (mm, r3) =>
              if 59 < mm then false
              else
                match r3 with
                | [] => true
                | ':' :: r4 =>
                  match parse2 r4 with
                  | some (ss, r5) =>
                    if 59 < ss then false
                    else
                      match r5 with
                      | [] => true
                      | p :: r6 =>
                        if p = '.' then
                          decide (r6 ≠ []) && r6.all Char.isDigit
                        else false
                  | none => false
                | _ => false
            | none => false
          | none => false
      | none => false
    else false

/-- Time-of-day part including any trailing timezone designator; returns
`(hour, minute, second, microsecond)`. -/
def parse_time (ts : Str) : Option (Nat × Nat × Nat × Nat) :=
  match parse2 ts with
  | none => none
  | some (h, r1) =>
    if 23 < h then none
    else
      match r1 with
      | ':' :: r2 =>
        match parse2 r2 with
        | none => none
        | some (mi, r3) =>
          if 59 < mi then none
          else
            match r3 with
            | ':' :: r4 =>
              match parse2 r4 with
              | none => none
              | some (se, r5) =>
                if 59 < se then none
                else
                  match r5 with
                  | p :: r6 =>
                    if p = '.' ∨ p = ',' then
                      let ds := r6.takeWhile Char.isDigit
                      if ds = [] then none
                      else if parse_tzinfo (r6.dropWhile Char.isDigit) then
                        some (h, mi, se, micro_of_digits ds)
                      else none
                    else if parse_tzinfo r5 then some (h, mi, se, 0) else none
                  | [] => some (h, mi, se, 0)
            | r3' => if parse_tzinfo r3' then some (h, mi, 0, 0) else none
      | r1' => if parse_tzinfo r1' then some (h, 0, 0, 0) else none

/-- Model of `datetime.fromisoformat` (Python 3.11+ acceptance): returns
`none` exactly where Python raises `ValueError`. -/
def fromisoformat (s : Str) : Option PyDateTime :=
  match parse4 s with
  | none => none
  | some (y, r1) =>
    if y = 0 then none
    else
      match expect_char '-' r1 with
      | none => none
      | some r2 =>
        match parse2 r2 with
        | none => none
        | some (mo, r3) =>
          if mo = 0 ∨ 12 < mo then none
          else
            match expect_char '-' r3 with
            | none => none
            | some r4 =>
              match parse2 r4 with
              | none => none
              | some (d, r5) =>
                if d = 0 ∨ days_in_month y mo < d then none
                else
                  match r5 with
                  | [] => some ⟨y, mo, d, 0, 0, 0, 0⟩
                  | _ :: ts =>
                    match parse_time ts with
                    | none => none
                    | some (h, mi, se, us) => some ⟨y, mo, d, h, mi, se, us⟩

/-- Two-digit zero-padded decimal rendering. -/
def pad2 (n : Nat) : Str := [Nat.digitChar (n / 10 % 10), Nat.digitChar (n % 10)]

/-- Four-digit zero-padded decimal rendering. -/
def pad4 (n : Nat) : Str :=
  [Nat.digitChar (n / 1000 % 10), Nat.digitChar (n / 100 % 10),
   Nat.digitChar (n / 10 % 10), Nat.digitChar (n % 10)]

/-- Model of `dt.strftime("%Y-%m-%d %H:%M:%S")`. -/
def strftime_ymd_hms (dt : PyDateTime) : Str :=
  pad4 dt.year ++ ['-'] ++ pad2 dt.month ++ ['-'] ++ pad2 dt.day ++ [' '] ++
    pad2 dt.hour ++ [':'] ++ pad2 dt.minute ++ [':'] ++ pad2 dt.second

/-- Model of `fecha_str.replace('Z', '+00:00')`. -/
def replace_Z_offset : Str → Str
  | [] => []
  | c :: cs => (if c = 'Z' then strOf "+00:00" else [c]) ++ replace_Z_offset cs

/-- The textual fallback `fecha_str.split('.')[0].replace('T', ' ')`:
truncate at the first dot, then replace every `'T'` with a space. -/
def fecha_fallback (s : Str) : Str :=
  (s.takeWhile (fun c => c ≠ '.')).map (fun c => if c = 'T' then ' ' else c)

/-- Embedding of `convertir_fecha_albion` (database.py, lines 21-34):
`None`/empty input yields `None`; otherwise replace `Z` with an explicit
UTC offset and try `datetime.fromisoformat`, formatting a successful parse
as `YYYY-MM-DD HH:MM:SS`; a `ValueError` falls back to textual
truncate-at-dot plus `T`-to-space substitution. -/
def convertir_fecha_albion (fecha_str : Option Str) : Option Str :=
  match fecha_str with
  | none => none
  | some s =>
    if s.isEmpty then none
    else
      match fromisoformat (replace_Z_offset s) with
      | some dt => some (strftime_ymd_hms dt)
      | none => some (fecha_fallback s)

example : parse_item_type (strOf "T4_ARMOR_CLOTH_SET2@1")
    = (strOf "T4_ARMOR_CLOTH_SET2", 1) := by decide
example : parse_item_type (strOf "T4_ARMOR_CLOTH_SET2")
    = (strOf "T4_ARMOR_CLOTH_SET2", 0) := by decide
example : parse_item_type (strOf "X@notanumber") = (strOf "X", 0) := by decide
example : parse_item_type (strOf "X@-2") = (strOf "X", -2) := by decide
example : convertir_fecha_albion (some (strOf "2026-02-26T05:38:15.108776600Z"))
    = some (strOf "2026-02-26 05:38:15") := by decide
example : convertir_fecha_albion (some (strOf "not a date"))
    = some (strOf "not a date") := by decide
example : convertir_fecha_albion (some (strOf "2026-01-01T00:00:00.000000Z"))
    = some (strOf "2026-01-01 00:00:00") := by decide

/- ------------------------------------------------------------------
   The relational store (database.py).  Each table is a list of rows;
   `muertes` auto-increment ids are modelled with an explicit counter.
   ------------------------------------------------------------------ -/

/-- Row of the `batallas` table. -/
structure Batalla where
  battle_id : Int
  fecha : Option Str
  total_fame : Option Int
  total_kills : Option Int
deriving DecidableEq, Repr

/-- Row of the `muertes` table (`id` is the auto-increment key). -/
structure Muerte where
  id : Nat
  battle_id : Int
  event_index : Nat
  player_albion_id : Str
  player_name : Str
  guild_id_albion : Str
  timestamp_muerte : Option Str
deriving DecidableEq, Repr

/-- Row of the `items_perdidos` table. -/
structure ItemPerdido where
  muerte_id : Nat
  slot : Str
  item_type : Str
  calidad : Int
  cantidad : Int
deriving DecidableEq, Repr

/-- The database state: the three tables written by the pipeline plus the
next auto-increment id for `muertes`. -/
structure DB where
  batallas : List Batalla
  muertes : List Muerte
  items_perdidos : List ItemPerdido
  next_muerte_id : Nat
deriving DecidableEq, Repr

/-- Embedding of `batalla_ya_procesada` (database.py, lines 66-74): a
`SELECT id FROM batallas WHERE battle_id = %s` existence check. -/
def batalla_ya_procesada (db : DB) (battle_id : Int) : Bool :=
  db.batallas.any (fun b => b.battle_id == battle_id)

/-- Embedding of `registrar_batalla`: normalizes the date and inserts one
`batallas` row. -/
def registrar_batalla (db : DB) (battle_id : Int) (fecha : Option Str)
    (total_fame total_kills : Option Int) : DB :=
  { db with batallas :=
      db.batallas ++ [⟨battle_id, convertir_fecha_albion fecha, total_fame, total_kills⟩] }

/-- Embedding of `registrar_muerte`: normalizes the timestamp, inserts one
`muertes` row and returns its auto-increment id. -/
def registrar_muerte (db : DB) (battle_id : Int) (event_index : Nat)
    (player_albion_id player_name guild_id_albion : Str)
    (timestamp : Option Str) : DB × Nat :=
  let mid := db.next_muerte_id
  ({ db with
      muertes := db.muertes ++
        [⟨mid, battle_id, event_index, player_albion_id, player_name,
          guild_id_albion, convertir_fecha_albion timestamp⟩],
      next_muerte_id := mid + 1 }, mid)

/-- Embedding of `registrar_item`: inserts one `items_perdidos` row. -/
def registrar_item (db : DB) (muerte_id : Nat) (slot item_type : Str)
    (calidad cantidad : Int) : DB :=
  { db with items_perdidos :=
      db.items_perdidos ++ [⟨muerte_id, slot, item_type, calidad, cantidad⟩] }

/-- Embedding of `obtener_muertes_por_batalla`. -/
def obtener_muertes_por_batalla (db : DB) (battle_id : Int) : List Muerte :=
  db.muertes.filter (fun m => m.battle_id == battle_id)

/-- Embedding of `obtener_items_por_muerte`. -/
def obtener_items_por_muerte (db : DB) (muerte_id : Nat) : List ItemPerdido :=
  db.items_perdidos.filter (fun it => it.muerte_id == muerte_id)

/-- The multiset produced by the SQL join
`items_perdidos ip JOIN muertes m ON ip.muerte_id = m.id WHERE m.battle_id = %s`:
one copy of `ip` for every matching `muertes` row. -/
def items_join_batalla (db : DB) (battle_id : Int) : List ItemPerdido :=
  db.items_perdidos.flatMap (fun ip =>
    (db.muertes.filter
      (fun m => m.id == ip.muerte_id && m.battle_id == battle_id)).map
      (fun _ => ip))

/-- First-occurrence deduplication used to model SQL `GROUP BY` keys. -/
def dedup_keys (seen : List (Str × Int)) : List (Str × Int) → List (Str × Int)
  | [] => []
  | k :: ks =>
    if k ∈ seen then dedup_keys seen ks
    else k :: dedup_keys (k :: seen) ks

/-- Result row of the grouped-aggregation query. -/
structure GroupRow where
  item_type : Str
  calidad : Int
  total_cantidad : Int
deriving DecidableEq, Repr

/-- Sum of `cantidad` over a list of `items_perdidos` rows. -/
def sum_cantidad (l : List ItemPerdido) : Int :=
  l.foldr (fun it a => it.cantidad + a) 0

/-- Embedding of `obtener_items_agrupados_por_batalla` (database.py, lines
140-158): the join rows grouped by `(item_type, calidad)` with summed
`cantidad` (one output row per distinct key, in first-occurrence order; SQL
leaves the order unspecified). -/
def obtener_items_agrupados_por_batalla (db : DB) (battle_id : Int) :
    List GroupRow :=
  let pool := items_join_batalla db battle_id
  (dedup_keys [] (pool.map (fun it => (it.item_type, it.calidad)))).map
    (fun k => ⟨k.1, k.2,
      sum_cantidad (pool.filter
        (fun it => it.item_type == k.1 && it.calidad == k.2))⟩)

/- ------------------------------------------------------------------
   Remote battle-event payloads (`GET /events/battle/{id}`), as consumed by
   `Monitor.process_battle` (tasks/monitor.py).  JSON objects are typed
   records with optional fields; an `Option` `none` models an absent key or
   a falsy/non-dict value where the code tests exactly that.  Fields the
   code indexes unconditionally (`Victim['Id']`, `Victim['Name']`,
   `battle['id']`) are required, per the ingestion-boundary validation of
   the spec.
   ------------------------------------------------------------------ -/

/-- One equipment-slot snapshot (a JSON dict with optional keys). -/
structure EquipItem where
  type_ : Option Str := none
  quality : Option Int := none
  count : Option Int := none
deriving DecidableEq, Repr

/-- The victim sub-object of an event.  An equipment value of `none` models
a slot whose entry is falsy or not a dict (skipped by
`if item_data and isinstance(item_data, dict)`). -/
structure Victim where
  vid : Str
  name : Str
  guildId : Option Str := none
  equipment : Option (List (Str × Option EquipItem)) := none
deriving DecidableEq, Repr

/-- One battle event; `victim = none` models a missing or falsy `Victim`. -/
structure Event where
  timeStamp : Option Str := none
  victim : Option Victim := none
deriving DecidableEq, Repr

/-- One battle summary from `GET /battles`. -/
structure BattleData where
  id : Int
  startTime : Option Str := none
  totalFame : Option Int := none
  totalKills : Option Int := none
deriving DecidableEq, Repr

/-- The guild-configuration fields the monitor reads. -/
structure GuildConfig where
  albion_guild_id : Str
  idioma : Option Str := none
deriving DecidableEq, Repr

/-- Equipment loop of `process_battle` (tasks/monitor.py, lines 315-322):
for each slot whose entry is a structured dict with a truthy `Type`,
insert one `items_perdidos` row, defaulting `Quality` to 0 and `Count`
to 1. -/
def registrar_items_equipment : DB → Nat → List (Str × Option EquipItem) → DB
  | db, _, [] => db
  | db, muerte_id, slot_item :: rest =>
    let db' :=
      match slot_item.2 with
      | some e =>
        match e.type_ with
        | some t =>
          if t.isEmpty then db
          else registrar_item db muerte_id slot_item.1 t
            (e.quality.getD 0) (e.count.getD 1)
        | none => db
      | none => db
    registrar_items_equipment db' muerte_id rest

/-- Event loop of `process_battle` (tasks/monitor.py, lines 298-324):
enumerate the events, skip those without a victim, and for victims of the
configured guild insert a death plus its lost items; returns the updated
state and `muertes_gremio`. -/
def process_events (gid : Str) (bid : Int) (idx : Nat) (evs : List Event)
    (db : DB) : DB × Nat :=
  match evs with
  | [] => (db, 0)
  | e :: es =>
    match e.victim with
    | none => process_events gid bid (idx + 1) es db
    | some v =>
      if v.guildId == some gid then
        let r := registrar_muerte db bid idx v.vid v.name gid e.timeStamp
        let db2 := registrar_items_equipment r.1 r.2 (v.equipment.getD [])
        let rest := process_events gid bid (idx + 1) es db2
        (rest.1, rest.2 + 1)
      else
        process_events gid bid (idx + 1) es db

/-- Result of `Monitor.process_battle`: the store, whether
`send_battle_notification` was invoked, and `muertes_gremio`. -/
structure PBResult where
  db : DB
  notified : Bool
  deaths : Nat
deriving DecidableEq, Repr

/-- Embedding of `Monitor.process_battle` (tasks/monitor.py, lines
278-332).  The battle row is inserted first; the event-log fetch result is
an explicit parameter (`none` models a failed fetch, `some []` an empty
log — both hit `if not events`); the notification dispatcher is invoked
iff `muertes_gremio > 0`. -/
def process_battle (battle_data : BattleData) (guild_config : GuildConfig)
    (events : Option (List Event)) (db : DB) : PBResult :=
  let db1 := registrar_batalla db battle_data.id battle_data.startTime
    battle_data.totalFame battle_data.totalKills
  match events with
  | none => ⟨db1, false, 0⟩
  | some [] => ⟨db1, false, 0⟩
  | some evs =>
    let r := process_events guild_config.albion_guild_id battle_data.id 0 evs db1
    ⟨r.1, decide (0 < r.2), r.2⟩

/-- The remote inputs one guild sees during a tick: its `get_battles`
result and the `get_battle_events` result per battle id. -/
structure GuildStep where
  gc : GuildConfig
  battles : Option (List BattleData)
  fetchEvents : Int → Option (List Event)

/-- Trace of a (partial) scan tick: the final store, the battle ids for
which the Battle Processor was invoked, and the battle ids for which a
notification was dispatched. -/
structure ScanResult where
  db : DB
  invoked : List Int
  notified : List Int

/-- Battle loop of `Monitor.process_guild` (tasks/monitor.py, lines
266-273): skip battles for which `batalla_ya_procesada` holds, process the
rest in order. -/
def process_guild_battles (gc : GuildConfig)
    (fetchEvents : Int → Option (List Event)) :
    List BattleData → DB → ScanResult
  | [], db => ⟨db, [], []⟩
  | b :: bs, db =>
    if batalla_ya_procesada db b.id then
      process_guild_battles gc fetchEvents bs db
    else
      let r := process_battle b gc (fetchEvents b.id) db
      let rest := process_guild_battles gc fetchEvents bs r.db
      ⟨rest.db, b.id :: rest.invoked,
        (if r.notified then [b.id] else []) ++ rest.notified⟩

/-- Embedding of `Monitor.process_guild` (tasks/monitor.py, lines
255-276): `if not battles` returns immediately, otherwise each battle is
checked against the dedup gate and processed. -/
def process_guild (st : GuildStep) (db : DB) : ScanResult :=
  match st.battles with
  | none => ⟨db, [], []⟩
  | some bs => process_guild_battles st.gc st.fetchEvents bs db

/-- Embedding of one tick of `Monitor.check_new_battles` (tasks/monitor.py,
lines 244-253): process every active guild in order, accumulating the
trace. -/
def check_new_battles (steps : List GuildStep) (db : DB) : ScanResult :=
  match steps with
  | [] => ⟨db, [], []⟩
  | st :: sts =>
    let r := process_guild st db
    let rest := check_new_battles sts r.db
    ⟨rest.db, r.invoked ++ rest.invoked, r.notified ++ rest.notified⟩

/- ------------------------------------------------------------------
   Specification-side definitions for the refinement claims, written from
   the spec's wording (spec sections 4.3 and 8) to be compared with the
   source-derived `process_battle`.
   ------------------------------------------------------------------ -/

/-- Spec wording: an event is guild-relevant iff it has a `Victim` whose
`GuildId` equals the configured guild id. -/
def spec_relevant (gid : Str) (e : Event) : Bool :=
  match e.victim with
  | some v => v.guildId == some gid
  | none => false

/-- Spec wording: one LostItem per equipment slot whose snapshot is a
structured entry carrying a non-empty `Type`, with `Quality` defaulting to
0 and `Count` defaulting to 1 when absent. -/
def spec_items (mid : Nat) (equipment : List (Str × Option EquipItem)) :
    List ItemPerdido :=
  equipment.filterMap
    (fun slot_item =>
      match slot_item.2 with
      | some e =>
        match e.type_ with
        | some t =>
          if t.isEmpty then none
          else some ⟨mid, slot_item.1, t, e.quality.getD 0, e.count.getD 1⟩
        | none => none
      | none => none)

/-- Spec wording: the Death rows (one per guild-relevant event, carrying
the event's position as `event_index`) and LostItem rows produced for an
event log, threading the auto-increment id. -/
def spec_rows (gid : Str) (bid : Int) (nid : Nat) (idx : Nat) :
    List Event → List Muerte × List ItemPerdido
  | [] => ([], [])
  | e :: es =>
    match e.victim with
    | some v =>
      if v.guildId == some gid then
        let m : Muerte :=
          ⟨nid, bid, idx, v.vid, v.name, gid, convertir_fecha_albion e.timeStamp⟩
        let rest := spec_rows gid bid (nid + 1) (idx + 1) es
        (m :: rest.1, spec_items nid (v.equipment.getD []) ++ rest.2)
      else spec_rows gid bid nid (idx + 1) es
    | none => spec_rows gid bid nid (idx + 1) es

/- ------------------------------------------------------------------
   Item catalog lookups and the 24-hour cache (albion_api.py).
   Remote HTTP outcomes are explicit inputs; times are integers (seconds).
   ------------------------------------------------------------------ -/

/-- The item catalog object returned by `GET /items/{type}/data`. -/
structure ItemData where
  localizedNames : List (Str × Str) := []
  uniqueName : Option Str := none
deriving DecidableEq, Repr

/-- Outcome of one remote HTTP request. -/
inductive FetchOutcome where
  | ok (data : ItemData)
  | notFound
  | httpError (status : Nat)
  | connError
deriving DecidableEq, Repr

/-- Embedding of `fetch_json` (albion_api.py, lines 16-36): only a 200
response yields data; a 404, any other status, and any connection error or
exception all return `None`. -/
def fetch_json : FetchOutcome → Option ItemData
  | .ok d => some d
  | .notFound => none
  | .httpError _ => none
  | .connError => none

/-- One `item_cache` entry. -/
structure CacheEntry where
  data : Option ItemData
  timestamp : Int
  not_found : Bool
deriving DecidableEq, Repr

/-- The module-level `item_cache` dict, as an association list. -/
abbrev Cache := List (Str × CacheEntry)

/-- `CACHE_DURATION = timedelta(hours=24)`, in seconds. -/
def CACHE_DURATION : Int := 24 * 60 * 60

/-- Dict lookup `item_cache[item_type]` / `in` test. -/
def cache_lookup (c : Cache) (k : Str) : Option CacheEntry :=
  List.lookup k c

/-- Dict deletion `del item_cache[item_type]`. -/
def cache_erase (c : Cache) (k : Str) : Cache :=
  c.filter (fun p => ¬ (p.1 == k))

/-- Dict assignment `item_cache[item_type] = {...}`. -/
def cache_insert (c : Cache) (k : Str) (v : CacheEntry) : Cache :=
  (k, v) :: cache_erase c k

/-- Result of one `get_item_data` call: the returned data, the cache state
afterwards, and whether a remote request was issued. -/
structure GIDResult where
  data : Option ItemData
  cache : Cache
  remote_called : Bool
deriving DecidableEq, Repr

/-- The consult-and-store tail of `get_item_data` (albion_api.py, lines
79-95): fetch, then cache a negative entry when the fetch produced `None`
and a positive entry otherwise. -/
def fetch_and_store (item_type : Str) (now : Int) (c : Cache)
    (remote : FetchOutcome) : GIDResult :=
  match fetch_json remote with
  | none => ⟨none, cache_insert c item_type ⟨none, now, true⟩, true⟩
  | some d => ⟨some d, cache_insert c item_type ⟨some d, now, false⟩, true⟩

/-- Embedding of `get_item_data` (albion_api.py, lines 57-95): a fresh
cache entry (age strictly below 24h) is served without any remote call
(`None` for negative entries); a stale entry is deleted and the lookup
refetches. -/
def get_item_data (item_type : Str) (now : Int) (cache : Cache)
    (remote : FetchOutcome) : GIDResult :=
  match cache_lookup cache item_type with
  | some entry =>
    if now - entry.timestamp < CACHE_DURATION then
      if entry.not_found then ⟨none, cache, false⟩
      else ⟨entry.data, cache, false⟩
    else
      fetch_and_store item_type now (cache_erase cache item_type) remote
  | none => fetch_and_store item_type now cache remote

/-- Embedding of `get_localized_name` (albion_api.py, lines 98-107).  A
`none` argument models a falsy `item_data`. -/
def get_localized_name (item_data : Option ItemData) (idioma : Str) : Str :=
  match item_data with
  | none => strOf "Item desconocido"
  | some d =>
    let lang_key := if idioma == strOf "es" then strOf "ES-ES" else strOf "EN-US"
    match List.lookup lang_key d.localizedNames with
    | some n => n
    | none => d.uniqueName.getD (strOf "Item sin nombre")

/-- Python `repr` of an integer. -/
def int_to_str (i : Int) : Str :=
  match i with
  | .ofNat n => Nat.toDigits 10 n
  | .negSucc n => '-' :: Nat.toDigits 10 (n + 1)

/-- The quality-label table of `_get_item_name` (tasks/monitor.py, line
229): `{1: "Bueno", 2: "Excelente", 3: "Sobresaliente", 4: "Maestro"}`. -/
def QUALITY_TABLE : List (Int × Str) :=
  [(1, strOf "Bueno"), (2, strOf "Excelente"),
   (3, strOf "Sobresaliente"), (4, strOf "Maestro")]

/-- Result of `_get_item_name`: the display name and the cache state the
two potential `get_item_data` calls leave behind. -/
structure GINResult where
  name : Str
  cache : Cache
deriving DecidableEq, Repr

/-- Embedding of `BattleReportView._get_item_name` (tasks/monitor.py, lines
204-232): resolve the base type first, fall back to the full identifier,
degrade to the raw identifier; append ` .{enchant}` when the enchant level
is positive and a quality label when the quality is positive.  The two
remote outcomes are explicit inputs (the second is consulted only on a
cache miss during the fallback lookup). -/
def get_item_name (guild_config : GuildConfig) (item_type : Str)
    (calidad : Int) (now : Int) (cache : Cache)
    (remote_base remote_full : FetchOutcome) : GINResult :=
  let idioma := guild_config.idioma.getD (strOf "es")
  let parsed := parse_item_type item_type
  let base_type := parsed.1
  let enchant_level := parsed.2
  let r1 := get_item_data base_type now cache remote_base
  let step1 : Str × Cache :=
    match r1.data with
    | some d => (get_localized_name (some d) idioma, r1.cache)
    | none =>
      let r2 := get_item_data item_type now r1.cache remote_full
      (match r2.data with
       | some d => get_localized_name (some d) idioma
       | none => item_type, r2.cache)
  let nombre1 :=
    if 0 < enchant_level then
      step1.1 ++ strOf " ." ++ int_to_str enchant_level
    else step1.1
  let nombre2 :=
    if 0 < calidad then
      nombre1 ++ strOf " (" ++
        ((List.lookup calidad QUALITY_TABLE).getD
          (strOf "Calidad " ++ int_to_str calidad)) ++ strOf ")"
    else nombre1
  ⟨nombre2, step1.2⟩

/- ------------------------------------------------------------------
   Report pagination (tasks/monitor.py, lines 104-148 and 167-198).  Both
   report builders share the same inlined loop shape: flush the current
   page when it already holds the maximum, then append the row; a final
   non-empty page is flushed after the loop.
   ------------------------------------------------------------------ -/

/-- The pagination loop with the current page as accumulator. -/
def paginate_aux (maxPer : Nat) (cur : List α) : List α → List (List α)
  | [] => if cur.isEmpty then [] else [cur]
  | r :: rs =>
    if maxPer ≤ cur.length then
      cur :: paginate_aux maxPer [r] rs
    else
      paginate_aux maxPer (cur ++ [r]) rs

/-- The paginator: partition `rows` into pages of at most `maxPer` rows. -/
def paginate (maxPer : Nat) (rows : List α) : List (List α) :=
  paginate_aux maxPer [] rows

/-- `MAX_FIELDS_PER_PAGE` of `individual_report` (tasks/monitor.py, line 110). -/
def MAX_FIELDS_PER_PAGE : Nat := 10

/-- `MAX_LINES_PER_PAGE` of `summary_report` (tasks/monitor.py, line 169). -/
def MAX_LINES_PER_PAGE : Nat := 20

/-- Page structure of `BattleReportView.individual_report`: one embed field
per death row, at most `MAX_FIELDS_PER_PAGE` per page (the embed text
around each row is presentation only). -/
def individual_report_pages (muertes : List Muerte) : List (List Muerte) :=
  paginate MAX_FIELDS_PER_PAGE muertes

/-- Page structure of `BattleReportView.summary_report`: one line per
grouped item row, at most `MAX_LINES_PER_PAGE` per page. -/
def summary_report_pages (rows : List GroupRow) : List (List GroupRow) :=
  paginate MAX_LINES_PER_PAGE rows

/- ------------------------------------------------------------------
   Helper lemmas: the paginator.
   ------------------------------------------------------------------ -/

lemma paginate_aux_flatten {α : Type} (M : Nat) :
    ∀ (rows cur : List α), (paginate_aux M cur rows).flatten = cur ++ rows := by
  intro rows
  induction rows with
  | nil =>
    intro cur
    by_cases h : cur.isEmpty
    · simp_all [paginate_aux, List.isEmpty_iff]
    · simp [paginate_aux, h]
  | cons r rs ih =>
    intro cur
    by_cases h : M ≤ cur.length
    · simp [paginate_aux, h, ih]
    · simp [paginate_aux, h, ih]

lemma paginate_aux_length {α : Type} (M : Nat) (hM : 0 < M) :
    ∀ (rows cur : List α), cur.length ≤ M →
      (paginate_aux M cur rows).length = (cur.length + rows.length + (M - 1)) / M := by
  intro rows
  induction rows with
  | nil =>
    intro cur hc
    by_cases h : cur.isEmpty
    · have hc0 : cur.length = 0 := by
        simpa [List.isEmpty_iff] using h
      have hdiv : (M - 1) / M = 0 := Nat.div_eq_of_lt (by omega)
      simp [paginate_aux, h, hc0, hdiv]
    · have hc1 : 1 ≤ cur.length := by
        rcases cur with _ | _
        · simp at h
        · simp
      have hdiv : (cur.length + (M - 1)) / M = 1 := by
        apply Nat.div_eq_of_lt_le <;> omega
      simp [paginate_aux, h, hdiv]
  | cons r rs ih =>
    intro cur hc
    by_cases h : M ≤ cur.length
    · have hcM : cur.length = M := le_antisymm hc h
      have h1 : (paginate_aux M [r] rs).length = (1 + rs.length + (M - 1)) / M :=
        ih [r] (by simpa using hM)
      have e1 : 1 + rs.length + (M - 1) = rs.length + M := by omega
      have key : (paginate_aux M cur (r :: rs)).length
          = (paginate_aux M [r] rs).length + 1 := by
        simp [paginate_aux, h]
      rw [key, h1, e1]
      have e2 : cur.length + (r :: rs).length + (M - 1) = (rs.length + M) + M := by
        simp only [List.length_cons]; omega
      rw [e2, Nat.add_div_right _ hM, Nat.add_div_right _ hM,
        Nat.add_div_right _ hM]
    · have h' : cur.length < M := Nat.lt_of_not_le h
      have h1 : (paginate_aux M (cur ++ [r]) rs).length
          = ((cur ++ [r]).length + rs.length + (M - 1)) / M :=
        ih (cur ++ [r]) (by simp; omega)
      have e : (cur ++ [r]).length + rs.length + (M - 1)
          = cur.length + (r :: rs).length + (M - 1) := by simp; omega
      simp only [paginate_aux, if_neg h]
      rw [h1, e]

lemma paginate_aux_page_le {α : Type} (M : Nat) (hM : 0 < M) :
    ∀ (rows cur : List α), cur.length ≤ M →
      ∀ p ∈ paginate_aux M cur rows, p.length ≤ M := by
  intro rows
  induction rows with
  | nil =>
    intro cur hc p hp
    by_cases h : cur.isEmpty
    · simp [paginate_aux, h] at hp
    · simp [paginate_aux, h] at hp
      simpa [hp] using hc
  | cons r rs ih =>
    intro cur hc p hp
    by_cases h : M ≤ cur.length
    · simp [paginate_aux, h] at hp
      rcases hp with hp | hp
      · simpa [hp] using hc
      · exact ih [r] (by simpa using hM) p hp
    · have h' : cur.length < M := Nat.lt_of_not_le h
      simp only [paginate_aux, if_neg h] at hp
      exact ih (cur ++ [r]) (by simp; omega) p hp

lemma paginate_aux_page_ne {α : Type} (M : Nat) (hM : 0 < M) :
    ∀ (rows cur : List α), ∀ p ∈ paginate_aux M cur rows, p ≠ [] := by
  intro rows
  induction rows with
  | nil =>
    intro cur p hp
    by_cases h : cur.isEmpty
    · simp [paginate_aux, h] at hp
    · simp [paginate_aux, h] at hp
      subst hp
      intro hnil
      rw [hnil] at h
      simp at h
  | cons r rs ih =>
    intro cur p hp
    by_cases h : M ≤ cur.length
    · simp [paginate_aux, h] at hp
      rcases hp with hp | hp
      · subst hp
        intro hnil
        rw [hnil] at h
        simp at h
        omega
      · exact ih [r] p hp
    · simp only [paginate_aux, if_neg h] at hp
      exact ih (cur ++ [r]) p hp

lemma paginate_flatten {α : Type} (M : Nat) (rows : List α) :
    (paginate M rows).flatten = rows := by
  simpa using paginate_aux_flatten M rows []

lemma paginate_length {α : Type} (M : Nat) (hM : 0 < M) (rows : List α) :
    (paginate M rows).length = (rows.length + (M - 1)) / M := by
  simpa using paginate_aux_length M hM rows [] (by simp)

lemma paginate_page_le {α : Type} (M : Nat) (hM : 0 < M) (rows : List α) :
    ∀ p ∈ paginate M rows, p.length ≤ M :=
  paginate_aux_page_le M hM rows [] (by simp)

lemma paginate_page_ne {α : Type} (M : Nat) (hM : 0 < M) (rows : List α) :
    ∀ p ∈ paginate M rows, p ≠ [] :=
  paginate_aux_page_ne M hM rows []

lemma paginate_eq_nil_iff {α : Type} (M : Nat) (rows : List α) :
    paginate M rows = [] ↔ rows = [] := by
  constructor
  · intro h
    have := paginate_flatten M rows
    rw [h] at this
    simpa using this.symm
  · intro h
    subst h
    rfl

/- ------------------------------------------------------------------
   Helper lemmas: identifier splitting and key deduplication.
   ------------------------------------------------------------------ -/

lemma split_first_at_eq_none (sep : Char) :
    ∀ s : Str, sep ∉ s → split_first_at sep s = none := by
  intro s
  induction s with
  | nil => intro _; rfl
  | cons c cs ih =>
    intro h
    have hc : c ≠ sep := fun he => h (by simp [he])
    have hcs : sep ∉ cs := fun hm => h (by simp [hm])
    simp [split_first_at, hc, ih hcs]

lemma split_first_at_append (sep : Char) :
    ∀ base rest : Str, sep ∉ base →
      split_first_at sep (base ++ sep :: rest) = some (base, rest) := by
  intro base
  induction base with
  | nil => intro rest _; simp [split_first_at]
  | cons c cs ih =>
    intro rest h
    have hc : c ≠ sep := fun he => h (by simp [he])
    have hcs : sep ∉ cs := fun hm => h (by simp [hm])
    simp [split_first_at, hc, ih rest hcs]

lemma dedup_keys_mem :
    ∀ (l seen : List (Str × Int)) (k : Str × Int),
      k ∈ dedup_keys seen l ↔ (k ∈ l ∧ k ∉ seen) := by
  intro l
  induction l with
  | nil => intro seen k; simp [dedup_keys]
  | cons a rest ih =>
    intro seen k
    by_cases ha : a ∈ seen
    · simp only [dedup_keys, if_pos ha, ih]
      constructor
      · rintro ⟨hk, hns⟩
        exact ⟨List.mem_cons_of_mem a hk, hns⟩
      · rintro ⟨hk, hns⟩
        rcases List.mem_cons.mp hk with hk | hk
        · exact absurd (hk ▸ ha) hns
        · exact ⟨hk, hns⟩
    · simp only [dedup_keys, if_neg ha, List.mem_cons, ih]
      by_cases hka : k = a
      · subst hka
        simp [ha]
      · simp [hka]

lemma dedup_keys_nodup :
    ∀ (l seen : List (Str × Int)), (dedup_keys seen l).Nodup := by
  intro l
  induction l with
  | nil => intro seen; simp [dedup_keys]
  | cons a rest ih =>
    intro seen
    by_cases ha : a ∈ seen
    · simpa [dedup_keys, if_pos ha] using ih seen
    · rw [dedup_keys, if_neg ha]
      refine List.nodup_cons.mpr ⟨?_, ih (a :: seen)⟩
      intro hmem
      exact ((dedup_keys_mem rest (a :: seen) a).mp hmem).2 (by simp)

/- ------------------------------------------------------------------
   Helper lemmas: the item cache.
   ------------------------------------------------------------------ -/

lemma cache_lookup_insert_self (c : Cache) (k : Str) (v : CacheEntry) :
    cache_lookup (cache_insert c k v) k = some v := by
  simp [cache_lookup, cache_insert, List.lookup]

/- ------------------------------------------------------------------
   Helper lemmas: the battle processor.
   ------------------------------------------------------------------ -/

lemma registrar_items_equipment_spec :
    ∀ (equipment : List (Str × Option EquipItem)) (db : DB) (mid : Nat),
      registrar_items_equipment db mid equipment =
        { db with items_perdidos := db.items_perdidos ++ spec_items mid equipment } := by
  intro equipment
  induction equipment with
  | nil => intro db mid; simp [registrar_items_equipment, spec_items]
  | cons si rest ih =>
    intro db mid
    obtain ⟨slot, oe⟩ := si
    match oe with
    | none =>
      rw [registrar_items_equipment]
      simp only [ih]
      simp [spec_items]
    | some e =>
      match he : e.type_ with
      | none =>
        rw [registrar_items_equipment]
        simp only [he, ih]
        simp [spec_items, List.filterMap_cons, he]
      | some t =>
        by_cases ht : t.isEmpty
        · have ht' : t = [] := by simpa [List.isEmpty_iff] using ht
          rw [registrar_items_equipment]
          simp only [he, if_pos ht, ih]
          simp [spec_items, List.filterMap_cons, he, ht']
        · have ht' : ¬ t = [] := by simpa [List.isEmpty_iff] using ht
          rw [registrar_items_equipment]
          simp only [he, if_neg ht, ih]
          simp [spec_items, List.filterMap_cons, he, ht', ht, registrar_item,
            List.append_assoc]

lemma process_events_spec :
    ∀ (evs : List Event) (gid : Str) (bid : Int) (idx : Nat) (db : DB),
      process_events gid bid idx evs db =
        ({ db with
            muertes := db.muertes ++ (spec_rows gid bid db.next_muerte_id idx evs).1,
            items_perdidos :=
              db.items_perdidos ++ (spec_rows gid bid db.next_muerte_id idx evs).2,
            next_muerte_id :=
              db.next_muerte_id + (spec_rows gid bid db.next_muerte_id idx evs).1.length },
         (spec_rows gid bid db.next_muerte_id idx evs).1.length) := by
  intro evs
  induction evs with
  | nil => intro gid bid idx db; simp [process_events, spec_rows]
  | cons e es ih =>
    intro gid bid idx db
    match hv : e.victim with
    | none =>
      rw [process_events, hv, ih, spec_rows, hv]
    | some v =>
      by_cases hg : v.guildId == some gid
      · simp only [process_events, spec_rows, hv]
        rw [if_pos hg, if_pos hg]
        simp only [registrar_muerte, registrar_items_equipment_spec, ih]
        obtain ⟨ba, mu, it, nid⟩ := db
        simp [List.append_assoc]
        omega
      · simp only [process_events, spec_rows, hv]
        rw [if_neg hg, if_neg hg, ih]

/-- The `batallas` row inserted by `process_battle`. -/
def batalla_row (bd : BattleData) : Batalla :=
  ⟨bd.id, convertir_fecha_albion bd.startTime, bd.totalFame, bd.totalKills⟩

lemma process_battle_some_spec (bd : BattleData) (gc : GuildConfig)
    (evs : List Event) (db : DB) :
    process_battle bd gc (some evs) db =
      ⟨{ db with
          batallas := db.batallas ++ [batalla_row bd],
          muertes := db.muertes ++
            (spec_rows gc.albion_guild_id bd.id db.next_muerte_id 0 evs).1,
          items_perdidos := db.items_perdidos ++
            (spec_rows gc.albion_guild_id bd.id db.next_muerte_id 0 evs).2,
          next_muerte_id := db.next_muerte_id +
            (spec_rows gc.albion_guild_id bd.id db.next_muerte_id 0 evs).1.length },
        decide (0 < (spec_rows gc.albion_guild_id bd.id db.next_muerte_id 0 evs).1.length),
        (spec_rows gc.albion_guild_id bd.id db.next_muerte_id 0 evs).1.length⟩ := by
  match evs with
  | [] =>
    simp [process_battle, registrar_batalla, spec_rows, batalla_row]
  | e :: es =>
    simp only [process_battle, process_events_spec, registrar_batalla, batalla_row]

lemma process_battle_none_spec (bd : BattleData) (gc : GuildConfig) (db : DB) :
    process_battle bd gc none db =
      ⟨{ db with batallas := db.batallas ++ [batalla_row bd] }, false, 0⟩ := by
  simp [process_battle, registrar_batalla, batalla_row]

lemma process_battle_batallas (bd : BattleData) (gc : GuildConfig)
    (ev : Option (List Event)) (db : DB) :
    (process_battle bd gc ev db).db.batallas = db.batallas ++ [batalla_row bd] := by
  match ev with
  | none => rw [process_battle_none_spec]
  | some evs => rw [process_battle_some_spec]

lemma ya_procesada_mono (bd : BattleData) (gc : GuildConfig)
    (ev : Option (List Event)) (db : DB) (bid : Int)
    (h : batalla_ya_procesada db bid = true) :
    batalla_ya_procesada (process_battle bd gc ev db).db bid = true := by
  unfold batalla_ya_procesada at h ⊢
  rw [process_battle_batallas, List.any_append, h]
  rfl

lemma ya_procesada_self (bd : BattleData) (gc : GuildConfig)
    (ev : Option (List Event)) (db : DB) :
    batalla_ya_procesada (process_battle bd gc ev db).db bd.id = true := by
  unfold batalla_ya_procesada
  rw [process_battle_batallas, List.any_append]
  simp [batalla_row]

lemma spec_rows_battle_id (gid : Str) (bid : Int) :
    ∀ (evs : List Event) (nid idx : Nat) (m : Muerte),
      m ∈ (spec_rows gid bid nid idx evs).1 → m.battle_id = bid := by
  intro evs
  induction evs with
  | nil => intro nid idx m hm; simp [spec_rows] at hm
  | cons e es ih =>
    intro nid idx m hm
    match hv : e.victim with
    | none =>
      rw [spec_rows, hv] at hm
      exact ih _ _ m hm
    | some v =>
      by_cases hg : v.guildId == some gid
      · simp only [spec_rows, hv] at hm
        rw [if_pos hg] at hm
        rcases List.mem_cons.mp hm with hm | hm
        · rw [hm]
        · exact ih _ _ m hm
      · simp only [spec_rows, hv] at hm
        rw [if_neg hg] at hm
        exact ih _ _ m hm

lemma process_battle_muertes_other (bd : BattleData) (gc : GuildConfig)
    (ev : Option (List Event)) (db : DB) (bid : Int) (hne : bd.id ≠ bid) :
    obtener_muertes_por_batalla (process_battle bd gc ev db).db bid =
      obtener_muertes_por_batalla db bid := by
  match ev with
  | none =>
    rw [process_battle_none_spec]
    rfl
  | some evs =>
    rw [process_battle_some_spec]
    unfold obtener_muertes_por_batalla
    simp only [List.filter_append]
    have hnil :
        (spec_rows gc.albion_guild_id bd.id db.next_muerte_id 0 evs).1.filter
          (fun m => m.battle_id == bid) = [] := by
      apply List.filter_eq_nil_iff.mpr
      intro m hm
      have := spec_rows_battle_id gc.albion_guild_id bd.id evs db.next_muerte_id 0 m hm
      simp [this, hne]
    rw [hnil, List.append_nil]

lemma process_guild_battles_skip (gc : GuildConfig)
    (fe : Int → Option (List Event)) (bid : Int) :
    ∀ (bs : List BattleData) (db : DB),
      batalla_ya_procesada db bid = true →
      bid ∉ (process_guild_battles gc fe bs db).invoked ∧
      batalla_ya_procesada (process_guild_battles gc fe bs db).db bid = true ∧
      obtener_muertes_por_batalla (process_guild_battles gc fe bs db).db bid =
        obtener_muertes_por_batalla db bid := by
  intro bs
  induction bs with
  | nil => intro db h; exact ⟨by simp [process_guild_battles], h, rfl⟩
  | cons b rest ih =>
    intro db h
    by_cases hb : batalla_ya_procesada db b.id
    · simpa [process_guild_battles, hb] using ih db h
    · have hne : b.id ≠ bid := by
        intro he
        rw [he] at hb
        exact hb h
      have hmono := ya_procesada_mono b gc (fe b.id) db bid h
      have hrest := ih (process_battle b gc (fe b.id) db).db hmono
      refine ⟨?_, ?_, ?_⟩
      · simp only [process_guild_battles, if_neg hb, List.mem_cons]
        rintro (he | he)
        · exact hne he.symm
        · exact hrest.1 he
      · simp only [process_guild_battles, if_neg hb]
        exact hrest.2.1
      · simp only [process_guild_battles, if_neg hb]
        rw [hrest.2.2, process_battle_muertes_other b gc (fe b.id) db bid hne]

lemma process_guild_skip (st : GuildStep) (db : DB) (bid : Int)
    (h : batalla_ya_procesada db bid = true) :
    bid ∉ (process_guild st db).invoked ∧
    batalla_ya_procesada (process_guild st db).db bid = true ∧
    obtener_muertes_por_batalla (process_guild st db).db bid =
      obtener_muertes_por_batalla db bid := by
  match hb : st.battles with
  | none => exact ⟨by simp [process_guild, hb], by simpa [process_guild, hb] using h,
      by simp [process_guild, hb]⟩
  | some bs =>
    simpa [process_guild, hb] using process_guild_battles_skip st.gc st.fetchEvents bid bs db h

lemma check_new_battles_skip (bid : Int) :
    ∀ (steps : List GuildStep) (db : DB),
      batalla_ya_procesada db bid = true →
      bid ∉ (check_new_battles steps db).invoked ∧
      batalla_ya_procesada (check_new_battles steps db).db bid = true ∧
      obtener_muertes_por_batalla (check_new_battles steps db).db bid =
        obtener_muertes_por_batalla db bid := by
  intro steps
  induction steps with
  | nil => intro db h; exact ⟨by simp [check_new_battles], h, rfl⟩
  | cons st sts ih =>
    intro db h
    have hst := process_guild_skip st db bid h
    have hrest := ih (process_guild st db).db hst.2.1
    refine ⟨?_, ?_, ?_⟩
    · simp only [check_new_battles, List.mem_append]
      rintro (he | he)
      · exact hst.1 he
      · exact hrest.1 he
    · simp only [check_new_battles]
      exact hrest.2.1
    · simp only [check_new_battles]
      rw [hrest.2.2, hst.2.2]

lemma spec_rows_length (gid : Str) (bid : Int) :
    ∀ (evs : List Event) (nid idx : Nat),
      (spec_rows gid bid nid idx evs).1.length =
        (evs.filter (spec_relevant gid)).length := by
  intro evs
  induction evs with
  | nil => intro nid idx; rfl
  | cons e es ih =>
    intro nid idx
    match hv : e.victim with
    | none =>
      simp only [spec_rows, hv, List.filter_cons, spec_relevant, hv]
      exact ih _ _
    | some v =>
      by_cases hg : v.guildId == some gid
      · simp only [spec_rows, hv, List.filter_cons, spec_relevant]
        rw [if_pos hg]
        simp only [hg, if_true, List.length_cons]
        rw [ih]
      · simp only [spec_rows, hv, List.filter_cons, spec_relevant]
        rw [if_neg hg]
        simp only [hg]
        simp only [Bool.false_eq_true, if_false]
        exact ih _ _

/- ------------------------------------------------------------------
   Claim theorems.
   ------------------------------------------------------------------ -/

/-- C1: for every battle id for which a `batallas` row already exists in
the store, a scan tick never invokes the Battle Processor for that battle
id — `process_guild` checks `batalla_ya_procesada` before `process_battle`
and skips the battle when the check is true. -/
theorem c1_scan_tick_skips_processed_battles (steps : List GuildStep)
    (db : DB) (bid : Int) (h : batalla_ya_procesada db bid = true) :
    bid ∉ (check_new_battles steps db).invoked :=
  (check_new_battles_skip bid steps db h).1

theorem c1_scan_tick_skips_processed_battles_witness :
    batalla_ya_procesada ⟨[⟨100, none, some 5000, some 3⟩], [], [], 1⟩ 100 = true ∧
    100 ∉ (check_new_battles
      [⟨⟨strOf "G1", none⟩, some [⟨100, none, some 5000, some 3⟩], fun _ => none⟩]
      ⟨[⟨100, none, some 5000, some 3⟩], [], [], 1⟩).invoked :=
  ⟨by decide,
    c1_scan_tick_skips_processed_battles
      [⟨⟨strOf "G1", none⟩, some [⟨100, none, some 5000, some 3⟩], fun _ => none⟩]
      ⟨[⟨100, none, some 5000, some 3⟩], [], [], 1⟩ 100 (by decide)⟩

/-- C2: `process_battle` persists exactly the Death rows of the
guild-relevant events (one per event whose victim is present and whose
`GuildId` equals the configured guild id, events without a victim being
skipped), persists exactly the LostItem rows described by `spec_items`
(one per structured equipment entry with a non-empty `Type`, `Quality`
defaulting to 0 and `Count` to 1), and invokes the notification dispatcher
iff the count of guild-relevant deaths is positive. -/
theorem c2_process_battle_refines_spec (bd : BattleData) (gc : GuildConfig)
    (evs : List Event) (db : DB) :
    (process_battle bd gc (some evs) db).db.muertes =
      db.muertes ++ (spec_rows gc.albion_guild_id bd.id db.next_muerte_id 0 evs).1 ∧
    (process_battle bd gc (some evs) db).db.items_perdidos =
      db.items_perdidos ++
        (spec_rows gc.albion_guild_id bd.id db.next_muerte_id 0 evs).2 ∧
    (spec_rows gc.albion_guild_id bd.id db.next_muerte_id 0 evs).1.length =
      (evs.filter (spec_relevant gc.albion_guild_id)).length ∧
    ((process_battle bd gc (some evs) db).notified = true ↔
      0 < (evs.filter (spec_relevant gc.albion_guild_id)).length) := by
  refine ⟨?_, ?_, spec_rows_length _ _ _ _ _, ?_⟩
  · rw [process_battle_some_spec]
  · rw [process_battle_some_spec]
  · rw [process_battle_some_spec]
    simp [spec_rows_length]

/-- C3: the `batallas` row is inserted before the event fetch, so after
`process_battle` runs with an empty or failed event fetch the battle id is
marked processed with zero Death rows recorded, and every later scan tick
skips it permanently — its deaths are never ingested. -/
theorem c3_failed_event_fetch_battle_permanently_skipped (bd : BattleData)
    (gc : GuildConfig) (db : DB) (ev : Option (List Event))
    (steps : List GuildStep) (hev : ev = none ∨ ev = some []) :
    batalla_ya_procesada (process_battle bd gc ev db).db bd.id = true ∧
    (process_battle bd gc ev db).db.muertes = db.muertes ∧
    bd.id ∉ (check_new_battles steps (process_battle bd gc ev db).db).invoked ∧
    obtener_muertes_por_batalla
        (check_new_battles steps (process_battle bd gc ev db).db).db bd.id =
      obtener_muertes_por_batalla (process_battle bd gc ev db).db bd.id := by
  have hya := ya_procesada_self bd gc ev db
  have hskip := check_new_battles_skip bd.id steps _ hya
  refine ⟨hya, ?_, hskip.1, hskip.2.2⟩
  rcases hev with hev | hev <;> subst hev
  · rw [process_battle_none_spec]
  · rw [process_battle_some_spec]
    simp [spec_rows]

theorem c3_failed_event_fetch_battle_permanently_skipped_witness :
    batalla_ya_procesada
        (process_battle ⟨7, none, none, none⟩ ⟨strOf "G1", none⟩ none
          ⟨[], [], [], 0⟩).db 7 = true ∧
    (process_battle ⟨7, none, none, none⟩ ⟨strOf "G1", none⟩ none
        ⟨[], [], [], 0⟩).db.muertes = ([] : List Muerte) ∧
    (7 : Int) ∉ (check_new_battles
        [⟨⟨strOf "G1", none⟩, some [⟨7, none, none, none⟩], fun _ => none⟩]
        (process_battle ⟨7, none, none, none⟩ ⟨strOf "G1", none⟩ none
          ⟨[], [], [], 0⟩).db).invoked ∧
    obtener_muertes_por_batalla
        (check_new_battles
          [⟨⟨strOf "G1", none⟩, some [⟨7, none, none, none⟩], fun _ => none⟩]
          (process_battle ⟨7, none, none, none⟩ ⟨strOf "G1", none⟩ none
            ⟨[], [], [], 0⟩).db).db 7 =
      obtener_muertes_por_batalla
        (process_battle ⟨7, none, none, none⟩ ⟨strOf "G1", none⟩ none
          ⟨[], [], [], 0⟩).db 7 :=
  c3_failed_event_fetch_battle_permanently_skipped ⟨7, none, none, none⟩
    ⟨strOf "G1", none⟩ ⟨[], [], [], 0⟩ none
    [⟨⟨strOf "G1", none⟩, some [⟨7, none, none, none⟩], fun _ => none⟩]
    (Or.inl rfl)

/-- C4: timestamp normalization maps the reference fractional-second
input to `"2026-02-26 05:38:15"`, maps `None` and the empty string to
`None`, and on every string the ISO parser rejects it falls back to
truncate-at-first-dot plus `T`-to-space substitution; it always produces a
value (never an error) on non-empty input. -/
theorem c4_timestamp_normalization :
    convertir_fecha_albion (some (strOf "2026-02-26T05:38:15.108776600Z")) =
      some (strOf "2026-02-26 05:38:15") ∧
    convertir_fecha_albion none = none ∧
    convertir_fecha_albion (some (strOf "")) = none ∧
    (∀ s : Str, s ≠ [] → fromisoformat (replace_Z_offset s) = none →
      convertir_fecha_albion (some s) = some (fecha_fallback s)) ∧
    (∀ s : Str, s ≠ [] → (convertir_fecha_albion (some s)).isSome = true) := by
  refine ⟨by decide, rfl, by decide, ?_, ?_⟩
  · intro s hs hf
    simp [convertir_fecha_albion, hf, List.isEmpty_iff, hs]
  · intro s hs
    simp only [convertir_fecha_albion, List.isEmpty_iff]
    rw [if_neg hs]
    match fromisoformat (replace_Z_offset s) with
    | some dt => rfl
    | none => rfl

theorem c4_timestamp_normalization_witness :
    (strOf "2026-13-99 oops" ≠ [] ∧
      fromisoformat (replace_Z_offset (strOf "2026-13-99 oops")) = none) ∧
    convertir_fecha_albion (some (strOf "2026-13-99 oops")) =
      some (fecha_fallback (strOf "2026-13-99 oops")) ∧
    (convertir_fecha_albion (some (strOf "2026-13-99 oops"))).isSome = true :=
  ⟨⟨by decide, by decide⟩,
    c4_timestamp_normalization.2.2.2.1 (strOf "2026-13-99 oops") (by decide)
      (by decide),
    c4_timestamp_normalization.2.2.2.2 (strOf "2026-13-99 oops") (by decide)⟩

/-- C5 counterexample: the claim asserts that for every input the enchant
level is non-negative, but `int("-2")` parses in Python, so
`parse_item_type "X@-2"` yields the negative enchant level `-2`. -/
theorem c5_counterexample_negative_enchant :
    parse_item_type (strOf "X@-2") = (strOf "X", -2) ∧
    (parse_item_type (strOf "X@-2")).2 < 0 := by
  constructor <;> decide

/-- C5 (amended): item identifier parsing splits a compound identifier at
the first `'@'` into `(base_type, enchant_level)`, where the enchant level
is the `int()` value of the suffix — an integer that may be negative for a
signed suffix — defaulting to 0 when the suffix is absent or unparsable;
the three example parses of the claim hold. -/
theorem c5_item_identifier_parse :
    parse_item_type (strOf "T4_ARMOR_CLOTH_SET2@1") =
      (strOf "T4_ARMOR_CLOTH_SET2", 1) ∧
    parse_item_type (strOf "T4_ARMOR_CLOTH_SET2") =
      (strOf "T4_ARMOR_CLOTH_SET2", 0) ∧
    parse_item_type (strOf "X@notanumber") = (strOf "X", 0) ∧
    (∀ s : Str, '@' ∉ s → parse_item_type s = (s, 0)) ∧
    (∀ base rest : Str, '@' ∉ base →
      parse_item_type (base ++ '@' :: rest) = (base, (py_int rest).getD 0)) := by
  refine ⟨by decide, by decide, by decide, ?_, ?_⟩
  · intro s hs
    simp [parse_item_type, split_first_at_eq_none '@' s hs]
  · intro base rest hb
    simp only [parse_item_type, split_first_at_append '@' base rest hb]
    match py_int rest with
    | some n => rfl
    | none => rfl

theorem c5_item_identifier_parse_witness :
    ('@' ∉ strOf "T8_MAIN_SWORD" ∧
      parse_item_type (strOf "T8_MAIN_SWORD") = (strOf "T8_MAIN_SWORD", 0)) ∧
    parse_item_type (strOf "T8" ++ '@' :: strOf "3") =
      (strOf "T8", (py_int (strOf "3")).getD 0) :=
  ⟨⟨by decide,
    c5_item_identifier_parse.2.2.2.1 (strOf "T8_MAIN_SWORD") (by decide)⟩,
    c5_item_identifier_parse.2.2.2.2 (strOf "T8") (strOf "3") (by decide)⟩

/-- C6 counterexample: on a connection error the resolver does write a
negative cache entry, so a second lookup within 24h is served from the
cache and issues no fresh remote call — contradicting the claim that
non-404 failures are not cached. -/
theorem c6_counterexample_error_is_cached :
    (get_item_data (strOf "T4_X") 0 [] .connError).data = none ∧
    cache_lookup (get_item_data (strOf "T4_X") 0 [] .connError).cache
      (strOf "T4_X") = some ⟨none, 0, true⟩ ∧
    (get_item_data (strOf "T4_X") 3600
      (get_item_data (strOf "T4_X") 0 [] .connError).cache
      .connError).remote_called = false := by
  refine ⟨by decide, by decide, by decide⟩

lemma get_item_data_lookup_some (bt : Str) (now : Int) (cache : Cache)
    (r : FetchOutcome) (e : CacheEntry) (hl : cache_lookup cache bt = some e) :
    get_item_data bt now cache r =
      if now - e.timestamp < CACHE_DURATION then
        (if e.not_found then ⟨none, cache, false⟩ else ⟨e.data, cache, false⟩)
      else fetch_and_store bt now (cache_erase cache bt) r := by
  unfold get_item_data
  rw [hl]

lemma get_item_data_lookup_none (bt : Str) (now : Int) (cache : Cache)
    (r : FetchOutcome) (hl : cache_lookup cache bt = none) :
    get_item_data bt now cache r = fetch_and_store bt now cache r := by
  unfold get_item_data
  rw [hl]

/-- C6 (amended): whenever the remote fetch yields no data — a 404, any
other HTTP status, or a connection error alike — and the cache holds no
fresh entry for the base type, `get_item_data` returns `None`, issues the
remote call, and stores a negative cache entry stamped `now`; transient
errors are therefore remembered exactly like not-found results. -/
theorem c6_failed_lookup_caches_negative_entry (item_type : Str) (now : Int)
    (cache : Cache) (remote : FetchOutcome)
    (hfail : fetch_json remote = none)
    (hstale : ∀ e, cache_lookup cache item_type = some e →
      CACHE_DURATION ≤ now - e.timestamp) :
    (get_item_data item_type now cache remote).data = none ∧
    (get_item_data item_type now cache remote).remote_called = true ∧
    cache_lookup (get_item_data item_type now cache remote).cache item_type =
      some ⟨none, now, true⟩ := by
  match hl : cache_lookup cache item_type with
  | none =>
    rw [get_item_data_lookup_none item_type now cache remote hl]
    unfold fetch_and_store
    rw [hfail]
    exact ⟨rfl, rfl, cache_lookup_insert_self _ _ _⟩
  | some e =>
    have hs := hstale e hl
    rw [get_item_data_lookup_some item_type now cache remote e hl,
      if_neg (by omega)]
    unfold fetch_and_store
    rw [hfail]
    exact ⟨rfl, rfl, cache_lookup_insert_self _ _ _⟩

theorem c6_failed_lookup_caches_negative_entry_witness :
    (fetch_json (.httpError 500) = none) ∧
    (get_item_data (strOf "T4_X") 5 [] (.httpError 500)).data = none ∧
    (get_item_data (strOf "T4_X") 5 [] (.httpError 500)).remote_called = true ∧
    cache_lookup (get_item_data (strOf "T4_X") 5 [] (.httpError 500)).cache
      (strOf "T4_X") = some ⟨none, 5, true⟩ :=
  ⟨by decide,
    c6_failed_lookup_caches_negative_entry (strOf "T4_X") 5 [] (.httpError 500)
      (by decide) (by intro e he; simp [cache_lookup] at he)⟩

/-- C7: while a negative cache entry for a base type is younger than 24
hours, a lookup returns `None` without issuing any remote call and leaves
the cache unchanged; once its age reaches or exceeds 24 hours the entry is
evicted and the next lookup issues a remote call, installing an entry
stamped with the new time. -/
theorem c7_negative_cache_fresh_and_eviction (bt : Str) (cache : Cache)
    (e : CacheEntry) (now2 : Int) (r2 : FetchOutcome)
    (hl : cache_lookup cache bt = some e) (hneg : e.not_found = true) :
    (now2 - e.timestamp < CACHE_DURATION →
      get_item_data bt now2 cache r2 = ⟨none, cache, false⟩) ∧
    (CACHE_DURATION ≤ now2 - e.timestamp →
      (get_item_data bt now2 cache r2).remote_called = true ∧
      ∀ e', cache_lookup (get_item_data bt now2 cache r2).cache bt = some e' →
        e'.timestamp = now2) := by
  constructor
  · intro hfresh
    rw [get_item_data_lookup_some bt now2 cache r2 e hl, if_pos hfresh,
      if_pos hneg]
  · intro hstale
    rw [get_item_data_lookup_some bt now2 cache r2 e hl, if_neg (by omega)]
    unfold fetch_and_store
    match fetch_json r2 with
    | none =>
      refine ⟨rfl, ?_⟩
      intro e' he'
      rw [cache_lookup_insert_self] at he'
      cases he'
      rfl
    | some d =>
      refine ⟨rfl, ?_⟩
      intro e' he'
      rw [cache_lookup_insert_self] at he'
      cases he'
      rfl

theorem c7_negative_cache_fresh_and_eviction_witness :
    (cache_lookup [(strOf "T4_X", ⟨none, 0, true⟩)] (strOf "T4_X") =
      some ⟨none, 0, true⟩) ∧
    (get_item_data (strOf "T4_X") 86399 [(strOf "T4_X", ⟨none, 0, true⟩)]
      .notFound = ⟨none, [(strOf "T4_X", ⟨none, 0, true⟩)], false⟩) ∧
    (get_item_data (strOf "T4_X") 86400 [(strOf "T4_X", ⟨none, 0, true⟩)]
      .notFound).remote_called = true :=
  ⟨by decide,
    (c7_negative_cache_fresh_and_eviction (strOf "T4_X")
      [(strOf "T4_X", ⟨none, 0, true⟩)] ⟨none, 0, true⟩ 86399 .notFound
      (by decide) rfl).1 (by decide),
    ((c7_negative_cache_fresh_and_eviction (strOf "T4_X")
      [(strOf "T4_X", ⟨none, 0, true⟩)] ⟨none, 0, true⟩ 86400 .notFound
      (by decide) rfl).2 (by decide)).1⟩

/-- C8: for every input row sequence, both report paginators produce
exactly `ceil(N/M)` pages (`(N + M - 1) / M` in natural division; 0 pages
only when N = 0), every page holds at most M rows and none is empty, and
concatenating the pages in order reproduces the input — with M = 10 fields
for the per-player report and M = 20 lines for the purchase summary. -/
theorem c8_pagination_invariant (muertes : List Muerte)
    (groups : List GroupRow) :
    ((individual_report_pages muertes).length =
        (muertes.length + (MAX_FIELDS_PER_PAGE - 1)) / MAX_FIELDS_PER_PAGE ∧
      (∀ p ∈ individual_report_pages muertes,
        p.length ≤ MAX_FIELDS_PER_PAGE ∧ p ≠ []) ∧
      (individual_report_pages muertes).flatten = muertes ∧
      (individual_report_pages muertes = [] ↔ muertes = [])) ∧
    ((summary_report_pages groups).length =
        (groups.length + (MAX_LINES_PER_PAGE - 1)) / MAX_LINES_PER_PAGE ∧
      (∀ p ∈ summary_report_pages groups,
        p.length ≤ MAX_LINES_PER_PAGE ∧ p ≠ []) ∧
      (summary_report_pages groups).flatten = groups ∧
      (summary_report_pages groups = [] ↔ groups = [])) := by
  refine ⟨⟨paginate_length _ (by decide) _, fun p hp =>
      ⟨paginate_page_le _ (by decide) _ p hp, paginate_page_ne _ (by decide) _ p hp⟩,
      paginate_flatten _ _, paginate_eq_nil_iff _ _⟩,
    ⟨paginate_length _ (by decide) _, fun p hp =>
      ⟨paginate_page_le _ (by decide) _ p hp, paginate_page_ne _ (by decide) _ p hp⟩,
      paginate_flatten _ _, paginate_eq_nil_iff _ _⟩⟩

theorem c8_pagination_invariant_witness :
    ([(⟨0, 0, 0, [], [], [], none⟩ : Muerte), ⟨0, 0, 0, [], [], [], none⟩,
        ⟨0, 0, 0, [], [], [], none⟩] ∈
      individual_report_pages [⟨0, 0, 0, [], [], [], none⟩,
        ⟨0, 0, 0, [], [], [], none⟩, ⟨0, 0, 0, [], [], [], none⟩]) ∧
    ([(⟨0, 0, 0, [], [], [], none⟩ : Muerte), ⟨0, 0, 0, [], [], [], none⟩,
        ⟨0, 0, 0, [], [], [], none⟩].length ≤ MAX_FIELDS_PER_PAGE ∧
      [(⟨0, 0, 0, [], [], [], none⟩ : Muerte), ⟨0, 0, 0, [], [], [], none⟩,
        ⟨0, 0, 0, [], [], [], none⟩] ≠ []) ∧
    (individual_report_pages [(⟨0, 0, 0, [], [], [], none⟩ : Muerte),
        ⟨0, 0, 0, [], [], [], none⟩, ⟨0, 0, 0, [], [], [], none⟩]).flatten =
      [⟨0, 0, 0, [], [], [], none⟩, ⟨0, 0, 0, [], [], [], none⟩,
        ⟨0, 0, 0, [], [], [], none⟩] :=
  ⟨by decide,
    (c8_pagination_invariant [⟨0, 0, 0, [], [], [], none⟩,
        ⟨0, 0, 0, [], [], [], none⟩, ⟨0, 0, 0, [], [], [], none⟩] []).1.2.1
      [⟨0, 0, 0, [], [], [], none⟩, ⟨0, 0, 0, [], [], [], none⟩,
        ⟨0, 0, 0, [], [], [], none⟩] (by decide),
    (c8_pagination_invariant [⟨0, 0, 0, [], [], [], none⟩,
        ⟨0, 0, 0, [], [], [], none⟩, ⟨0, 0, 0, [], [], [], none⟩] []).1.2.2.1⟩

/-- C9: the grouped-aggregation query returns one row per distinct
`(item_type, calidad)` pair occurring among the lost-item rows joined to
the battle's deaths, with `total_cantidad` the sum of the grouped
quantities. -/
theorem c9_aggregation_groups_and_sums (db : DB) (bid : Int) :
    (∀ t q, (∃ r ∈ obtener_items_agrupados_por_batalla db bid,
        r.item_type = t ∧ r.calidad = q) ↔
      (∃ it ∈ items_join_batalla db bid, it.item_type = t ∧ it.calidad = q)) ∧
    ((obtener_items_agrupados_por_batalla db bid).map
      (fun r => (r.item_type, r.calidad))).Nodup ∧
    (∀ r ∈ obtener_items_agrupados_por_batalla db bid,
      r.total_cantidad = sum_cantidad ((items_join_batalla db bid).filter
        (fun it => it.item_type == r.item_type && it.calidad == r.calidad))) := by
  refine ⟨?_, ?_, ?_⟩
  · intro t q
    constructor
    · rintro ⟨r, hr, ht, hq⟩
      rcases List.mem_map.mp hr with ⟨k, hk, rfl⟩
      have hkeys := (dedup_keys_mem _ [] k).mp hk
      rcases List.mem_map.mp hkeys.1 with ⟨it, hit, hkey⟩
      subst hkey
      exact ⟨it, hit, ht, hq⟩
    · rintro ⟨it, hit, ht, hq⟩
      refine ⟨⟨t, q, sum_cantidad ((items_join_batalla db bid).filter
          (fun i => i.item_type == t && i.calidad == q))⟩, ?_, rfl, rfl⟩
      simp only [obtener_items_agrupados_por_batalla]
      have hmem : (t, q) ∈ dedup_keys []
          ((items_join_batalla db bid).map
            (fun i => (i.item_type, i.calidad))) := by
        apply (dedup_keys_mem _ [] (t, q)).mpr
        exact ⟨List.mem_map.mpr ⟨it, hit, by rw [ht, hq]⟩, by simp⟩
      exact List.mem_map_of_mem _ hmem
  · have hmap : (obtener_items_agrupados_por_batalla db bid).map
        (fun r => (r.item_type, r.calidad)) =
        dedup_keys [] ((items_join_batalla db bid).map
          (fun it => (it.item_type, it.calidad))) := by
      unfold obtener_items_agrupados_por_batalla
      rw [List.map_map]
      exact List.map_id _
    rw [hmap]
    exact dedup_keys_nodup _ _
  · intro r hr
    rcases List.mem_map.mp hr with ⟨k, hk, rfl⟩
    rfl

theorem c9_aggregation_groups_and_sums_witness :
    obtener_items_agrupados_por_batalla
        ⟨[], [⟨1, 7, 0, [], [], [], none⟩, ⟨2, 7, 1, [], [], [], none⟩],
          [⟨1, strOf "s", strOf "A", 1, 3⟩, ⟨2, strOf "s", strOf "A", 1, 2⟩,
            ⟨2, strOf "s", strOf "B", 2, 1⟩], 3⟩ 7 =
      [⟨strOf "A", 1, 5⟩, ⟨strOf "B", 2, 1⟩] ∧
    ((obtener_items_agrupados_por_batalla
        ⟨[], [⟨1, 7, 0, [], [], [], none⟩, ⟨2, 7, 1, [], [], [], none⟩],
          [⟨1, strOf "s", strOf "A", 1, 3⟩, ⟨2, strOf "s", strOf "A", 1, 2⟩,
            ⟨2, strOf "s", strOf "B", 2, 1⟩], 3⟩ 7).map
      (fun r => (r.item_type, r.calidad))).Nodup :=
  ⟨by decide,
    (c9_aggregation_groups_and_sums
      ⟨[], [⟨1, 7, 0, [], [], [], none⟩, ⟨2, 7, 1, [], [], [], none⟩],
        [⟨1, strOf "s", strOf "A", 1, 3⟩, ⟨2, strOf "s", strOf "A", 1, 2⟩,
          ⟨2, strOf "s", strOf "B", 2, 1⟩], 3⟩ 7).2.1⟩

/-- The decoration appended to a resolved core name: a ` .{enchant}`
suffix exactly when the enchant level is positive, and a quality label
exactly when the quality is positive, via the fixed table with a
`Calidad {n}` fallback. -/
def display_suffixes (enchant_level calidad : Int) : Str :=
  (if 0 < enchant_level then strOf " ." ++ int_to_str enchant_level else []) ++
    (if 0 < calidad then
      strOf " (" ++ ((List.lookup calidad QUALITY_TABLE).getD
        (strOf "Calidad " ++ int_to_str calidad)) ++ strOf ")"
    else [])

/-- C10: display-name composition — the base type is resolved first; on
failure resolution is retried with the full original identifier (against
the cache state the first lookup left); if both fail the name degrades to
the raw identifier; and in every case the ` .{enchant}` suffix appears
exactly when the enchant level is positive and the quality label (from the
fixed four-entry table, with the `Calidad {n}` fallback) exactly when the
quality is positive. -/
theorem c10_display_name_composition (gc : GuildConfig) (item_type : Str)
    (calidad : Int) (now : Int) (cache : Cache) (rB rF : FetchOutcome) :
    (∀ d, (get_item_data (parse_item_type item_type).1 now cache rB).data =
        some d →
      (get_item_name gc item_type calidad now cache rB rF).name =
        get_localized_name (some d) (gc.idioma.getD (strOf "es")) ++
          display_suffixes (parse_item_type item_type).2 calidad) ∧
    ((get_item_data (parse_item_type item_type).1 now cache rB).data = none →
      ∀ d, (get_item_data item_type now
          (get_item_data (parse_item_type item_type).1 now cache rB).cache
          rF).data = some d →
      (get_item_name gc item_type calidad now cache rB rF).name =
        get_localized_name (some d) (gc.idioma.getD (strOf "es")) ++
          display_suffixes (parse_item_type item_type).2 calidad) ∧
    ((get_item_data (parse_item_type item_type).1 now cache rB).data = none →
      (get_item_data item_type now
          (get_item_data (parse_item_type item_type).1 now cache rB).cache
          rF).data = none →
      (get_item_name gc item_type calidad now cache rB rF).name =
        item_type ++ display_suffixes (parse_item_type item_type).2 calidad) := by
  refine ⟨?_, ?_, ?_⟩
  · intro d hd
    simp only [get_item_name, display_suffixes, hd]
    by_cases he : 0 < (parse_item_type item_type).2 <;>
      by_cases hc : 0 < calidad <;>
        simp [he, hc, List.append_assoc]
  · intro h1 d hd
    simp only [get_item_name, display_suffixes, h1, hd]
    by_cases he : 0 < (parse_item_type item_type).2 <;>
      by_cases hc : 0 < calidad <;>
        simp [he, hc, List.append_assoc]
  · intro h1 h2
    simp only [get_item_name, display_suffixes, h1, h2]
    by_cases he : 0 < (parse_item_type item_type).2 <;>
      by_cases hc : 0 < calidad <;>
        simp [he, hc, List.append_assoc]

theorem c10_display_name_composition_witness :
    (get_item_data (parse_item_type (strOf "X@3")).1 0 [] .connError).data =
      none ∧
    (get_item_data (strOf "X@3") 0
      (get_item_data (parse_item_type (strOf "X@3")).1 0 [] .connError).cache
      .connError).data = none ∧
    (get_item_name ⟨strOf "G", none⟩ (strOf "X@3") 7 0 [] .connError
      .connError).name = strOf "X@3 .3 (Calidad 7)" :=
  ⟨by decide, by decide,
    ((c10_display_name_composition ⟨strOf "G", none⟩ (strOf "X@3") 7 0 []
      .connError .connError).2.2 (by decide) (by decide)).trans (by decide)⟩
